import Mathlib

/-!
# Verification of the descriptor-context engine (`src/Context.js`, `src/util.js`)

Shallow embedding of the descriptor-resolution engine of the `kmd` repository.
Manifests are JSON documents already parsed into `JVal`; the filesystem is an
abstract structure of existence predicates plus the parsed manifest carried at
each file path.  Paths are modelled as canonical absolute component lists
(`FsPath`); the constructor's absolutification step (Context.js lines 49-50) is
modelled separately on raw (possibly relative) paths, see `ctorPaths`.
-/

set_option autoImplicit false

/-- Parsed JSON manifest values (the output of `file.load()` on a `.json` file). -/
inductive JVal where
  | null
  | bool (b : Bool)
  | num (n : Int)
  | str (s : String)
  | arr (elems : List JVal)
  | obj (fields : List (String × JVal))
deriving Repr

/-- Field access `v[key]` on a parsed JSON document.  Only objects carry keys;
parsed JSON objects have pairwise distinct keys, so first match suffices.
Access on a non-object yields `undefined`, modelled as `none`. -/
def jLookup (v : JVal) (key : String) : Option JVal :=
  match v with
  | JVal.obj fields => fieldsLookup fields key
  | _ => none
where fieldsLookup : List (String × JVal) → String → Option JVal
  | [], _ => none
  | (k, x) :: rest, key => if k = key then some x else fieldsLookup rest key

/-- JavaScript truthiness of a JSON value. -/
def jTruthy : JVal → Bool
  | JVal.null => false
  | JVal.bool b => b
  | JVal.num n => n != 0
  | JVal.str s => s != ""
  | JVal.arr _ => true
  | JVal.obj _ => true

/-- JS test `typeof x === "object"`: true for objects, arrays and `null`
(`undefined`, i.e. `none`, is of type "undefined"). -/
def jsTypeofObject : Option JVal → Bool
  | some (JVal.obj _) => true
  | some (JVal.arr _) => true
  | some JVal.null => true
  | _ => false

/-- Splitting a character list at a separator; the empty list yields one empty
group, as JS `"".split(',')` yields `[""]`. -/
def splitChars (sep : Char) : List Char → List (List Char)
  | [] => [[]]
  | c :: rest =>
      match splitChars sep rest with
      | [] => [[]]
      | grp :: grps => if c = sep then [] :: grp :: grps else (c :: grp) :: grps

/-- JS `s.split(sep)` for a one-character separator. -/
def jsSplit (s : String) (sep : Char) : List String :=
  (splitChars sep s.data).map (fun l => String.mk l)

/-- Does the string start with the given character? -/
def startsWithChar (s : String) (c : Char) : Bool :=
  match s.data with
  | [] => false
  | a :: _ => a = c

/-- Blank-trimming of a character list (JS `trim`, restricted to spaces). -/
def trimChars (l : List Char) : List Char :=
  ((l.dropWhile (fun c => c = ' ')).reverse.dropWhile (fun c => c = ' ')).reverse

/-- Decimal digit-run value; `none` when empty or any non-digit occurs. -/
def digitsValAux (acc : Nat) : List Char → Option Nat
  | [] => some acc
  | c :: rest => if c.isDigit then digitsValAux (acc * 10 + (c.toNat - 48)) rest else none

/-- Value of a non-empty all-digit run. -/
def digitsVal : List Char → Option Nat
  | [] => none
  | l => digitsValAux 0 l

/-- Optionally signed decimal integer literal. -/
def jsParseInt : List Char → Option Int
  | '-' :: rest => (digitsVal rest).map (fun n => -(n : Int))
  | '+' :: rest => (digitsVal rest).map (fun n => (n : Int))
  | l => (digitsVal l).map (fun n => (n : Int))

/-- JS `Number(string)` restricted to integer literals: the empty/blank string
coerces to `0`; otherwise an optionally signed decimal literal; anything else is
`NaN` (`none`).  (Fractional, hex and exponent literals are outside the
manifests considered; they would also be non-integers.) -/
def jsStrToNum (s : String) : Option Int :=
  let t := trimChars s.data
  if t = [] then some 0 else jsParseInt t

/-- JS unary `+x` (ToNumber) on a possibly-absent JSON value; `none` plays NaN.
Arrays and objects coerce through their string form; for the object/array cases
we conservatively answer NaN (`{}` is NaN in JS; the claims never exercise
array-valued `format` fields). -/
def jsToNum : Option JVal → Option Int
  | none => none
  | some JVal.null => some 0
  | some (JVal.bool b) => some (if b then 1 else 0)
  | some (JVal.num n) => some n
  | some (JVal.str s) => jsStrToNum s
  | some (JVal.arr _) => none
  | some (JVal.obj _) => none

/-- `delete v[key]` on an object (JS `delete data.sencha`, Context.js line 594). -/
def jDelete (v : JVal) (key : String) : JVal :=
  match v with
  | JVal.obj fields => JVal.obj (fields.filter (fun e => e.1 ≠ key))
  | _ => v

/-- Property assignment `v[key] = x` on an object: replaces the value in place
when the key exists (JS keeps the original enumeration position), appends
otherwise. -/
def jSet (v : JVal) (key : String) (x : JVal) : JVal :=
  match v with
  | JVal.obj fields =>
      if fields.any (fun e => e.1 = key) then
        JVal.obj (fields.map (fun e => if e.1 = key then (key, x) else e))
      else
        JVal.obj (fields ++ [(key, x)])
  | _ => v

/-- Assignment of a possibly-`undefined` value.  Assigning `undefined` in JS
creates/keeps the key with value `undefined`, which is indistinguishable from
an absent key under field access; we model it as leaving the object unchanged. -/
def jSetOpt (v : JVal) (key : String) : Option JVal → JVal
  | some x => jSet v key x
  | none => v

/-- JS `a || b` on possibly-absent values (`undefined` is falsy). -/
def jsOr (a b : Option JVal) : Option JVal :=
  match a with
  | some v => if jTruthy v then some v else b
  | none => b

/-- A canonical absolute filesystem path: its components below the root.
Post-constructor `dir`/`file` paths of a `Context` have this form
(Context.js lines 49-50; see `ctorPaths` for the absolutification itself). -/
abbrev FsPath := List String

/-- The filesystem as seen through the `phylo` accessor: which paths exist as
directories, which as files, and the parsed JSON carried at each file path
(`file.load()`); `manifest` is only meaningful where `fileExists` holds. -/
structure FileSystem where
  dirExists : FsPath → Bool
  fileExists : FsPath → Bool
  manifest : FsPath → JVal

/-- `dir.hasFile(name)` (phylo): the file `dir/name` exists. -/
def hasFile (fs : FileSystem) (d : FsPath) (name : String) : Bool :=
  fs.fileExists (d ++ [name])

/-- `p.exists()` (phylo): the path exists as a directory or as a file. -/
def jsExists (fs : FileSystem) (p : FsPath) : Bool :=
  fs.dirExists p || fs.fileExists p

/-- Normalize path segments (resolution of `.`, `..` and empty segments, as
`path.resolve` does); the accumulator holds the already-kept segments in
reverse. -/
def normSegs : List String → List String → List String
  | acc, [] => acc.reverse
  | acc, s :: rest =>
      if s = "" ∨ s = "." then normSegs acc rest
      else if s = ".." then normSegs acc.tail rest
      else normSegs (s :: acc) rest

/-- `dir.resolve(s)` (phylo): resolve a manifest-declared path string against a
canonical absolute directory; an absolute string replaces the base. -/
def resolvePath (dir : FsPath) (s : String) : FsPath :=
  if startsWithChar s '/' then normSegs [] (jsSplit s '/')
  else normSegs [] (dir ++ jsSplit s '/')

/-- `p.path` (phylo): the textual form of a canonical absolute path; injective
on canonical paths. -/
def pathString (p : FsPath) : String :=
  "/" ++ String.intercalate "/" p

/-- A raw, possibly relative, possibly unnormalized path as it may be handed to
the `Context` constructor before line 49-50 absolutify it. -/
inductive RawPath where
  | abs (segs : List String)
  | rel (segs : List String)

/-- Is the path absolute? -/
def RawPath.isAbsolute : RawPath → Bool
  | RawPath.abs _ => true
  | RawPath.rel _ => false

/-- The component list of a raw path. -/
def RawPath.segs : RawPath → List String
  | RawPath.abs s => s
  | RawPath.rel s => s

/-- `p.absolutify()` (phylo): resolve against the process `cwd` and normalize,
as `path.resolve(cwd, p)` does. -/
def absolutify (cwd : List String) : RawPath → RawPath
  | RawPath.abs segs => RawPath.abs (normSegs [] segs)
  | RawPath.rel segs => RawPath.abs (normSegs [] (cwd ++ segs))

/-- A path segment free of `""`, `"."` and `".."`. -/
def isCleanSeg (s : String) : Bool :=
  s != "" && s != "." && s != ".."

/-- A normalized path: every segment is clean. -/
def isNormalizedPath (p : List String) : Bool :=
  p.all isCleanSeg

/-- The `Context` constructor's treatment of its `dir` and `file` config
members (Context.js lines 49-50): `this.dir = this.dir.absolutify();
this.file = this.file.absolutify();`.  These are the only assignments to the
two fields in the source. -/
def ctorPaths (cwd : List String) (dir file : RawPath) : RawPath × RawPath :=
  (absolutify cwd dir, absolutify cwd file)

/-- The closed set of concrete `Context` kinds (Context.js classes
`Workspace`, `App`, `Package`, `Framework`, `Toolkit`, `Theme`). -/
inductive CKind where
  | workspace
  | app
  | package
  | framework
  | toolkit
  | theme
deriving DecidableEq, Repr

/-- Does the kind inherit `Package`'s static `at` (and constructor)? -/
def isPackageKind : CKind → Bool
  | CKind.package => true
  | CKind.framework => true
  | CKind.toolkit => true
  | CKind.theme => true
  | _ => false

/-- The kind's manifest file name, static getter `FILE` (Context.js lines
56-58): `KEY + '.json'` with `$file`/`$key` cached on the class object.
`Framework`/`Toolkit`/`Theme` inherit the cached `Package.$file`
(`"package.json"`) through the static prototype chain, since `Package.FILE`
is accessed first in every dispatch (`Context.at`, line 76). -/
def kindFile : CKind → String
  | CKind.workspace => "workspace.json"
  | CKind.app => "app.json"
  | _ => "package.json"

/-- The kind's `KEY` (Context.js lines 63-65), under which `_gatherProps`
flattens its manifest; `Framework`/`Toolkit`/`Theme` inherit `Package.$key`
(`"package"`) as for `kindFile`. -/
def kindKey : CKind → String
  | CKind.workspace => "workspace"
  | CKind.app => "app"
  | _ => "package"

/-- The prototype `prefix` member used by `getRelProp` (Context.js lines
262-264, 426-431, 572-575, 610-613, 621-624): `Framework` overrides it to
`"framework"`, `Toolkit`/`Theme` inherit `Package`'s. -/
def relScope : CKind → String
  | CKind.workspace => "workspace"
  | CKind.app => "app"
  | CKind.framework => "framework"
  | _ => "package"

/-- The package-format marker test of `Package.at` (Context.js line 583):
`+data.format === 1 || typeof data.sencha === 'object'`. -/
def formatMarker (m : JVal) : Bool :=
  (jsToNum (jLookup m "format") == some 1) || jsTypeofObject (jLookup m "sencha")

/-- Claim-side package marker, spelled from the spec's words: the manifest's
`format` field equals `1` (under JS numeric comparison `+data.format === 1`),
or it has an object-valued (`typeof === "object"`) `sencha` field. -/
def specPackageMarker (m : JVal) : Bool :=
  (jsToNum (jLookup m "format") == some 1) || jsTypeofObject (jLookup m "sencha")

/-- Static `at` of a concrete kind (Context.js lines 72-80 and 580-587):
presence of the kind's manifest file; kinds inheriting `Package.at`
additionally load that manifest and test the format marker. -/
def atK (fs : FileSystem) (k : CKind) (d : FsPath) : Bool :=
  if isPackageKind k then
    hasFile fs d (kindFile k) && formatMarker (fs.manifest (d ++ [kindFile k]))
  else
    hasFile fs d (kindFile k)

/-- Generic `Context.at` (Context.js line 76): `App.at(d) || Package.at(d) ||
Workspace.at(d)`. -/
def genericAt (fs : FileSystem) (d : FsPath) : Bool :=
  atK fs CKind.app d || atK fs CKind.package d || atK fs CKind.workspace d

/-- The `Package` constructor's data transformation (Context.js lines
589-603): when the outer document has a truthy `sencha` member, that
sub-object is promoted to top level, the outer document (with `sencha`
removed) is retained under `$npm`, and `name`/`version` fall back to the
outer document's values when the sub-object's own are falsy. -/
def pkgCtorData (data : JVal) : JVal :=
  match jLookup data "sencha" with
  | some s =>
      if jTruthy s then
        let outer := jDelete data "sencha"
        let s1 := jSet s "$npm" outer
        let s2 := jSetOpt s1 "name" (jsOr (jLookup s "name") (jLookup outer "name"))
        jSetOpt s2 "version" (jsOr (jLookup s "version") (jLookup outer "version"))
      else data
  | none => data

/-- The constructor's data transformation per kind: the `Package` constructor
(inherited by `Framework`/`Toolkit`/`Theme`) rewrites the parsed manifest;
other kinds store it as loaded. -/
def ctxData (k : CKind) (data : JVal) : JVal :=
  if isPackageKind k then pkgCtorData data else data

/-- A constructed descriptor context: its kind, directory, manifest file path
and (constructor-transformed) manifest data.  `creator`/manager bookkeeping
is not needed by the claims considered and is omitted. -/
structure Ctx where
  kind : CKind
  dir : FsPath
  file : FsPath
  data : JVal
deriving Repr

/-- Static `load` of a concrete kind (Context.js lines 115-143): `null` for a
null directory, `null` when `at` fails, otherwise the typed node built from
the parsed manifest (with `dir = file.parent`, `file = d.join(FILE)`). -/
def loadK (fs : FileSystem) (k : CKind) (d : Option FsPath) : Option Ctx :=
  match d with
  | none => none
  | some d =>
      if atK fs k d then
        some { kind := k
               dir := d
               file := d ++ [kindFile k]
               data := ctxData k (fs.manifest (d ++ [kindFile k])) }
      else none

/-- JS `a || b` on nullable contexts. -/
def orElseCtx : Option Ctx → Option Ctx → Option Ctx
  | some c, _ => some c
  | none, y => y

/-- Generic `Context.load` (Context.js lines 115-124): null directory gives
null, otherwise `App.load(d) || Package.load(d) || Workspace.load(d)`. -/
def genericLoad (fs : FileSystem) (d : Option FsPath) : Option Ctx :=
  match d with
  | none => none
  | some d =>
      orElseCtx (loadK fs CKind.app (some d))
        (orElseCtx (loadK fs CKind.package (some d)) (loadK fs CKind.workspace (some d)))

/-- The manifest files a kind's static `at` reads (Context.js line 582): only
`Package.at` (inherited by its subclasses) loads the manifest, and only after
`super.at` confirmed the file is present. -/
def atReads (fs : FileSystem) (k : CKind) (d : FsPath) : List FsPath :=
  if isPackageKind k && hasFile fs d (kindFile k) then [d ++ [kindFile k]] else []

/-- The manifest files a kind's `load` reads: whatever `at` read, plus the
manifest itself when `at` succeeded (Context.js lines 126-131). -/
def loadReads (fs : FileSystem) (k : CKind) : Option FsPath → List FsPath
  | none => []
  | some d => atReads fs k d ++ (if atK fs k d then [d ++ [kindFile k]] else [])

/-- The manifest files generic `Context.load` reads: the `||`-dispatch
short-circuits, so later kinds are only consulted while earlier loads return
null. -/
def genericLoadReads (fs : FileSystem) (d : FsPath) : List FsPath :=
  loadReads fs CKind.app (some d) ++
    (if (loadK fs CKind.app (some d)).isSome then []
     else
       loadReads fs CKind.package (some d) ++
         (if (loadK fs CKind.package (some d)).isSome then []
          else loadReads fs CKind.workspace (some d)))

/-- The parent chain of a directory, the directory itself first, ending at the
filesystem root (the upward climb of phylo's `up`), bounded by the path's
length. -/
def parentsChainAux : Nat → FsPath → List FsPath
  | _, [] => [[]]
  | 0, p => [p]
  | n + 1, p => p :: parentsChainAux n p.dropLast

/-- All ancestors of a directory, itself included, root last. -/
def parentsChain (p : FsPath) : List FsPath :=
  parentsChainAux p.length p

/-- `Phyl.from(dir).up(d => this.at(d))` as used by generic `Context.from`
(Context.js line 92): the nearest ancestor (itself included) satisfying the
generic `at`. -/
def upWalk (fs : FileSystem) (d : FsPath) : Option FsPath :=
  (parentsChain d).find? (genericAt fs)

/-- Generic `Context.from` (Context.js lines 91-95): climb upward to the
nearest qualifying directory, then dispatch `load` on it. -/
def genericFrom (fs : FileSystem) (d : FsPath) : Option Ctx :=
  genericLoad fs (upWalk fs d)

/-- The manifest properties naming sub-package search roots per kind
(`_getPackagePathProps`, Context.js lines 417-419, 567-569, 605-607, 629-631,
641-643); `Framework` inherits `Package`'s; `Toolkit`/`Theme` override with
`null`. -/
def getPackagePathProps : CKind → Option (List String)
  | CKind.workspace => some ["workspace.packages.extract", "workspace.packages.dir"]
  | CKind.app => some ["app.packages.dir"]
  | CKind.package => some ["package.subpkgs"]
  | CKind.framework => some ["package.subpkgs"]
  | CKind.toolkit => none
  | CKind.theme => none

/-- The loop body of `getPackagePath` (Context.js lines 223-234): for each
declared property, a truthy value is split on commas, empty pieces skipped,
the rest resolved against the context's directory.  The configuration
property lookup `this.getProp(prop)` is passed in as `gp` (string-valued
properties; cf. `getProp` below). -/
def gatherPackageDirs (dir : FsPath) (gp : String → Option String) :
    List String → List FsPath
  | [] => []
  | p :: rest =>
      (match gp p with
       | some v =>
           if v ≠ "" then
             ((jsSplit v ',').filter (fun piece => piece ≠ "")).map (resolvePath dir)
           else []
       | none => []) ++ gatherPackageDirs dir gp rest

/-- The candidate list `dirs` of `getPackagePath` just before the final filter
(Context.js lines 220-239): the gathered property dirs or, when the kind
declares properties but none produced an entry, the single fallback
`this.dir.join('packages')`; kinds declaring no properties gather nothing. -/
def packageDirsPreFilter (k : CKind) (dir : FsPath) (gp : String → Option String) :
    List FsPath :=
  match getPackagePathProps k with
  | none => []
  | some props =>
      let dirs := gatherPackageDirs dir gp props
      if dirs.isEmpty then [dir ++ ["packages"]] else dirs

/-- `getPackagePath` as the source actually behaves (Context.js line 241):
`dirs.filter(distinctifyPaths).map(d => d.nativize())`.  `distinctifyPaths`
(util.js lines 21-23) is a zero-argument factory returning a fresh
distinctinator closure; passed directly as the `Array.filter` callback it is
invoked once per element, ignores its arguments, and returns that closure — a
function object, hence truthy — so every element is kept: the filter is a
no-op.  `nativize` only rewrites separators, the identity on the canonical
component representation. -/
def getPackagePath (k : CKind) (dir : FsPath) (gp : String → Option String) :
    List FsPath :=
  (packageDirsPreFilter k dir gp).filter (fun _ => true)

/-- `util.distinctinator(rule)` (util.js lines 13-19) applied along a list:
keep an element when the rule yields a truthy key not seen before, remembering
kept keys. -/
def distinctRun (rule : FsPath → Option String) (seen : List String) :
    List FsPath → List FsPath
  | [] => []
  | d :: rest =>
      match rule d with
      | some p =>
          if seen.contains p then distinctRun rule seen rest
          else d :: distinctRun rule (p :: seen) rest
      | none => distinctRun rule seen rest

/-- The rule built by `distinctifyPaths` (util.js line 22):
`d => d.exists() && d.absolutePath()` — the canonical absolute path string of
an existing path, otherwise a falsy value (`none`). -/
def distinctifyPathsRule (fs : FileSystem) (d : FsPath) : Option String :=
  if jsExists fs d then some (pathString d) else none

/-- `getPackagePath` as evidently intended (and as the spec describes):
`dirs.filter(distinctifyPaths())`, i.e. the distinctinator applied, dropping
non-existent paths and canonical-path duplicates. -/
def getPackagePathIntended (fs : FileSystem) (k : CKind) (dir : FsPath)
    (gp : String → Option String) : List FsPath :=
  distinctRun (distinctifyPathsRule fs) [] (packageDirsPreFilter k dir gp)

/-- Modelled from the spec: the Property Store (`src/PropertyMap.js` is not
among the sources; spec section 4.1).  An ordered list of key/value entries;
`add` registers a scalar and is a no-op if the key is already set
(first-write-wins); `get` returns the stored scalar or `undefined`. -/
structure PropertyMap where
  entries : List (String × JVal)

/-- First-match lookup in the entry list. -/
def pmGet : List (String × JVal) → String → Option JVal
  | [], _ => none
  | (k, v) :: rest, key => if k = key then some v else pmGet rest key

/-- Modelled from the spec: `get(key)` returns the stored scalar or
`undefined`. -/
def PropertyMap.get (m : PropertyMap) (key : String) : Option JVal :=
  pmGet m.entries key

/-- Modelled from the spec: `add(key, value)` registers a scalar; no-op if the
key is already set (first-write-wins). -/
def PropertyMap.add (m : PropertyMap) (key : String) (v : JVal) : PropertyMap :=
  if (m.get key).isSome then m else ⟨m.entries ++ [(key, v)]⟩

/-- `add` folded over a list of entries, in order. -/
def PropertyMap.addAll (m : PropertyMap) : List (String × JVal) → PropertyMap
  | [] => m
  | (k, v) :: rest => (m.add k v).addAll rest

/-- The textual form of a scalar used when array leaves are comma-joined. -/
def scalarText : JVal → String
  | JVal.str s => s
  | JVal.num n => toString n
  | JVal.bool b => if b then "true" else "false"
  | _ => ""

/-- Comma-join of an array leaf's scalar elements (the spec's declared merge
rule for list leaves). -/
def joinScalars (xs : List JVal) : String :=
  String.intercalate "," (xs.map scalarText)

mutual
/-- Modelled from the spec: the entries `flatten(prefix, data)` registers —
one per leaf scalar under `prefix.path.to.leaf`, manifest order; array leaves
comma-joined; `null` is not a scalar (cf. `util.primitive`) and registers
nothing. -/
def leafEntries (pre : String) : JVal → List (String × JVal)
  | JVal.null => []
  | JVal.bool b => [(pre, JVal.bool b)]
  | JVal.num n => [(pre, JVal.num n)]
  | JVal.str s => [(pre, JVal.str s)]
  | JVal.arr xs => [(pre, JVal.str (joinScalars xs))]
  | JVal.obj fields => leafEntriesF pre fields

/-- `leafEntries` over an object's field list. -/
def leafEntriesF (pre : String) : List (String × JVal) → List (String × JVal)
  | [] => []
  | (k, v) :: rest => leafEntries (pre ++ "." ++ k) v ++ leafEntriesF pre rest
end

/-- Modelled from the spec: `flatten(prefix, data)` registers one entry per
leaf scalar of `data` under dotted paths below `prefix`, through `add`
(first-write-wins). -/
def PropertyMap.flatten (m : PropertyMap) (pre : String) (data : JVal) : PropertyMap :=
  m.addAll (leafEntries pre data)

/-- `Context._gatherProps` (Context.js lines 289-298): flatten the manifest
under the kind's `KEY`, then add `KEY + '.dir'` with the context directory. -/
def gatherPropsInto (m : PropertyMap) (key : String) (data : JVal) (dir : FsPath) :
    PropertyMap :=
  (m.flatten key data).add (key ++ ".dir") (JVal.str (pathString dir))

/-- The store after the context's own `_gatherProps` pass alone. -/
def gatherPropsOwn (key : String) (data : JVal) (dir : FsPath) : PropertyMap :=
  gatherPropsInto ⟨[]⟩ key data dir

/-- `CodeBase._gatherProps` (Context.js lines 523-529): the own pass first
(`super._gatherProps`), then the owning workspace's pass into the same store
(`this.workspace._gatherProps(props)`, which runs `Context._gatherProps` with
the workspace's `KEY`, data and directory). -/
def gatherPropsCodeBase (key : String) (data : JVal) (dir : FsPath)
    (wsData : JVal) (wsDir : FsPath) : PropertyMap :=
  gatherPropsInto (gatherPropsOwn key data dir) "workspace" wsData wsDir

/-- `getConfigProps` for an `App`/`Package` context `c` owned by workspace
`ws` (Context.js lines 211-217; memoization elided in the pure model). -/
def getConfigProps (c ws : Ctx) : PropertyMap :=
  gatherPropsCodeBase (kindKey c.kind) c.data c.dir ws.data ws.dir

/-- `getProp` (Context.js lines 257-260): lookup in the merged store. -/
def getProp (c ws : Ctx) (key : String) : Option JVal :=
  (getConfigProps c ws).get key

/-- `_resolvePath` applied to a property value (Context.js lines 552-554):
`path.split(',').map(p => this.dir.resolve(p))`.  A missing property
(`undefined`) or a non-string scalar has no `.split` method: the access
throws a `TypeError`, modelled as `Except.error`. -/
def resolvePathJS (dir : FsPath) (v : Option JVal) : Except String (List FsPath) :=
  match v with
  | some (JVal.str s) => Except.ok ((jsSplit s ',').map (resolvePath dir))
  | some _ => Except.error "TypeError: path.split is not a function"
  | none => Except.error "TypeError: cannot read split of undefined"

/-- The `classpath` getter (Context.js lines 439-448): resolve the
`<scope>.classpath` property of the merged store. -/
def classpathGet (c ws : Ctx) : Except String (List FsPath) :=
  resolvePathJS c.dir (getProp c ws (relScope c.kind ++ ".classpath"))

/-- The `overrides` getter (Context.js lines 471-477): resolve the
`<scope>.overrides` property of the merged store. -/
def overridesGet (c ws : Ctx) : Except String (List FsPath) :=
  resolvePathJS c.dir (getProp c ws (relScope c.kind ++ ".overrides"))

/-- `Workspace.hasFramework` (Context.js lines 421-423):
`name in this.data.frameworks`.  The `in` operator requires an object:
an absent, null or scalar `frameworks` member makes the call throw a
`TypeError`.  (Array operands are legal in JS but a manifest `frameworks`
table is an object; we conservatively fold them into the error case.) -/
def hasFramework (d : JVal) (name : String) : Except String Bool :=
  match jLookup d "frameworks" with
  | some (JVal.obj fields) => Except.ok (fields.any (fun e => e.1 = name))
  | _ => Except.error "TypeError: cannot use in operator on non-object"

/-- `Workspace.getFramework` (Context.js lines 392-415), on first access
(the `frameworks` cache starts empty): raise unless the named entry exists,
is truthy and carries a truthy `path`; resolve that path against the
workspace directory; raise when the resolved path does not exist; otherwise
`Framework.load` it.  A truthy non-string `path` would be handed to phylo's
`resolve`; no manifest in the claims does this, modelled as an error. -/
def getFramework (fs : FileSystem) (ws : Ctx) (name : String) :
    Except String (Option Ctx) :=
  match jLookup ws.data "frameworks" with
  | some (JVal.obj fields) =>
      match pmGet fields name with
      | some fw =>
          if jTruthy fw then
            match jLookup fw "path" with
            | some p =>
                if jTruthy p then
                  match p with
                  | JVal.str ps =>
                      let dir := resolvePath ws.dir ps
                      if jsExists fs dir then
                        Except.ok (loadK fs CKind.framework (some dir))
                      else Except.error "Framework path does not exist"
                  | _ => Except.error "model restriction: framework path must be a string"
                else Except.error "Framework has no path"
            | none => Except.error "Framework has no path"
          else Except.error "No framework found in workspace"
      | none => Except.error "No framework found in workspace"
  | _ => Except.error "TypeError: cannot read properties of non-object"

/-- The else-branch of the `framework` getter (Context.js lines 458-465):
resolve the manifest's `framework` value against the context's own directory;
raise when it does not exist, otherwise `Framework.load` it. -/
def siblingLoad (fs : FileSystem) (c : Ctx) (fw : String) :
    Except String (Option Ctx) :=
  let dir := resolvePath c.dir fw
  if jsExists fs dir then Except.ok (loadK fs CKind.framework (some dir))
  else Except.error "Framework path does not exist"

/-- The `CodeBase.framework` getter (Context.js lines 450-469) for a context
`c` whose owning workspace is `ws` (`none` when no workspace resolves):
dispatch through the workspace's named table when `ws && ws.hasFramework(fw)`,
else load the sibling path.  The manifest's `framework` value is a string in
every claim considered; other shapes are modelled as an error. -/
def frameworkGet (fs : FileSystem) (c : Ctx) (ws : Option Ctx) :
    Except String (Option Ctx) :=
  match jLookup c.data "framework" with
  | some (JVal.str fw) =>
      match ws with
      | some w =>
          (match hasFramework w.data fw with
           | Except.error e => Except.error e
           | Except.ok true => getFramework fs w fw
           | Except.ok false => siblingLoad fs c fw)
      | none => siblingLoad fs c fw
  | _ => Except.error "model restriction: framework value must be a string"

/-! ## Helper lemmas -/

/-- A concrete empty filesystem used by the witnesses. -/
def fsEmpty : FileSystem :=
  { dirExists := fun _ => false
    fileExists := fun _ => false
    manifest := fun _ => JVal.null }

theorem tail_all_clean {acc : List String} (h : acc.all isCleanSeg = true) :
    acc.tail.all isCleanSeg = true := by
  cases acc with
  | nil => simp
  | cons a rest => simp_all

theorem normSegs_all_clean (l : List String) :
    ∀ acc : List String, acc.all isCleanSeg = true →
      (normSegs acc l).all isCleanSeg = true := by
  induction l with
  | nil =>
      intro acc h
      simpa [normSegs] using h
  | cons s rest ih =>
      intro acc h
      by_cases h1 : s = "" ∨ s = "."
      · rw [normSegs, if_pos h1]
        exact ih acc h
      · by_cases h2 : s = ".."
        · rw [normSegs, if_neg h1, if_pos h2]
          exact ih acc.tail (tail_all_clean h)
        · rw [normSegs, if_neg h1, if_neg h2]
          refine ih (s :: acc) ?_
          have hs : isCleanSeg s = true := by
            push_neg at h1
            simp [isCleanSeg, bne_iff_ne, h1.1, h1.2, h2]
          simp [hs, h]

theorem atK_eq_false {fs : FileSystem} (k : CKind) {d : FsPath}
    (h : hasFile fs d (kindFile k) = false) : atK fs k d = false := by
  unfold atK
  split <;> simp [h]

theorem loadK_eq_some {fs : FileSystem} {k : CKind} {d : FsPath}
    (h : atK fs k d = true) :
    loadK fs k (some d) =
      some { kind := k
             dir := d
             file := d ++ [kindFile k]
             data := ctxData k (fs.manifest (d ++ [kindFile k])) } := by
  simp [loadK, h]

theorem loadK_eq_none {fs : FileSystem} {k : CKind} {d : FsPath}
    (h : atK fs k d = false) : loadK fs k (some d) = none := by
  simp [loadK, h]

/-! ## Claim theorems -/

/-- Claim C7: for every successfully constructed Context, the constructor
leaves `dir` and `file` absolute and normalized (Context.js lines 49-50),
and the functional model has no other assignment to either field. -/
theorem c7_ctor_paths_normalized :
    ∀ (cwd : List String) (dir file : RawPath),
      ((ctorPaths cwd dir file).1.isAbsolute = true
          ∧ isNormalizedPath (ctorPaths cwd dir file).1.segs = true)
        ∧ ((ctorPaths cwd dir file).2.isAbsolute = true
          ∧ isNormalizedPath (ctorPaths cwd dir file).2.segs = true) := by
  intro cwd dir file
  have habs : ∀ p : RawPath, (absolutify cwd p).isAbsolute = true := by
    intro p
    cases p <;> rfl
  have hnorm : ∀ p : RawPath, isNormalizedPath (absolutify cwd p).segs = true := by
    intro p
    cases p <;> exact normSegs_all_clean _ [] rfl
  exact ⟨⟨habs dir, hnorm dir⟩, ⟨habs file, hnorm file⟩⟩

/-- Claim C3: `Package.at` (and the `at` of every kind that inherits it)
holds exactly when the `package.json` manifest is present and carries the
package-format marker (`format` equal to `1` under JS coercion, or a
`sencha` field of JS object type); for the other kinds, `at` is exactly the
presence of the kind's manifest file. -/
theorem c3_at_characterization :
    ∀ (fs : FileSystem) (d : FsPath),
      (∀ k : CKind, isPackageKind k = true →
          atK fs k d =
            (hasFile fs d "package.json"
              && specPackageMarker (fs.manifest (d ++ ["package.json"]))))
        ∧ (∀ k : CKind, isPackageKind k = false →
            atK fs k d = hasFile fs d (kindFile k)) := by
  intro fs d
  constructor
  · intro k hk
    cases k <;> simp_all [atK, isPackageKind, kindFile, specPackageMarker, formatMarker]
  · intro k hk
    cases k <;> simp_all [atK, isPackageKind]

/-- Witness for C3 at a concrete directory and filesystem. -/
theorem c3_at_characterization_wit :
    atK fsEmpty CKind.package ["d"] =
      (hasFile fsEmpty ["d"] "package.json"
        && specPackageMarker (fsEmpty.manifest (["d"] ++ ["package.json"])))
    ∧ atK fsEmpty CKind.app ["d"] = hasFile fsEmpty ["d"] (kindFile CKind.app) :=
  ⟨(c3_at_characterization fsEmpty ["d"]).1 CKind.package rfl,
   (c3_at_characterization fsEmpty ["d"]).2 CKind.app rfl⟩

/-- Claim C2: `load` on a directory lacking the kind's recognized manifest
file returns null having read no manifest; `load` on a null directory
returns null; and when no kind's manifest is present the generic dispatch
returns null with no reads either. -/
theorem c2_load_missing_manifest :
    ∀ (fs : FileSystem) (d : FsPath) (k : CKind),
      hasFile fs d (kindFile k) = false →
      loadK fs k (some d) = none
        ∧ loadReads fs k (some d) = []
        ∧ loadK fs k none = none
        ∧ loadReads fs k none = []
        ∧ (hasFile fs d "app.json" = false →
            hasFile fs d "package.json" = false →
            hasFile fs d "workspace.json" = false →
            genericLoad fs (some d) = none
              ∧ genericLoadReads fs d = []
              ∧ genericLoad fs none = none) := by
  intro fs d k h
  have hat := atK_eq_false k h
  refine ⟨loadK_eq_none hat, ?_, rfl, rfl, ?_⟩
  · simp [loadReads, atReads, h, hat]
  · intro ha hp hw
    have hata : atK fs CKind.app d = false := atK_eq_false CKind.app ha
    have hatp : atK fs CKind.package d = false := atK_eq_false CKind.package hp
    have hatw : atK fs CKind.workspace d = false := atK_eq_false CKind.workspace hw
    refine ⟨?_, ?_, rfl⟩
    · simp [genericLoad, loadK_eq_none hata, loadK_eq_none hatp, loadK_eq_none hatw,
        orElseCtx]
    · simp [genericLoadReads, loadReads, atReads, loadK_eq_none hata,
        loadK_eq_none hatp, ha, hp, hw, hata, hatp, hatw, kindFile, isPackageKind]

/-- Witness for C2 on the empty filesystem. -/
theorem c2_load_missing_manifest_wit :
    loadK fsEmpty CKind.app (some ["d"]) = none
      ∧ genericLoad fsEmpty (some ["d"]) = none :=
  ⟨(c2_load_missing_manifest fsEmpty ["d"] CKind.app rfl).1,
   ((c2_load_missing_manifest fsEmpty ["d"] CKind.app rfl).2.2.2.2 rfl rfl rfl).1⟩

/-- Claim C10: the generic `Context.at`/`Context.load` dispatch tries App,
then Package, then Workspace, returning the first match; `Context.from` is
the same dispatch after the upward walk; hence a directory carrying both an
app manifest and a workspace manifest always loads as an App. -/
theorem c10_dispatch_order :
    ∀ (fs : FileSystem) (d : FsPath),
      genericAt fs d =
          (atK fs CKind.app d || atK fs CKind.package d || atK fs CKind.workspace d)
        ∧ (atK fs CKind.app d = true →
            genericLoad fs (some d) = loadK fs CKind.app (some d))
        ∧ (atK fs CKind.app d = false → atK fs CKind.package d = true →
            genericLoad fs (some d) = loadK fs CKind.package (some d))
        ∧ (atK fs CKind.app d = false → atK fs CKind.package d = false →
            genericLoad fs (some d) = loadK fs CKind.workspace (some d))
        ∧ genericFrom fs d = genericLoad fs (upWalk fs d)
        ∧ (hasFile fs d "app.json" = true → hasFile fs d "workspace.json" = true →
            ∃ c : Ctx, genericLoad fs (some d) = some c ∧ c.kind = CKind.app) := by
  intro fs d
  refine ⟨rfl, ?_, ?_, ?_, rfl, ?_⟩
  · intro ha
    simp [genericLoad, loadK_eq_some ha, orElseCtx]
  · intro ha hp
    simp [genericLoad, loadK_eq_none ha, loadK_eq_some hp, orElseCtx]
  · intro ha hp
    simp [genericLoad, loadK_eq_none ha, loadK_eq_none hp, orElseCtx]
  · intro ha _
    have hat : atK fs CKind.app d = true := by
      simpa [atK, isPackageKind, kindFile] using ha
    refine ⟨{ kind := CKind.app
              dir := d
              file := d ++ [kindFile CKind.app]
              data := ctxData CKind.app (fs.manifest (d ++ [kindFile CKind.app])) },
      ?_, rfl⟩
    simp [genericLoad, loadK_eq_some hat, orElseCtx]

/-- A filesystem carrying both `d/app.json` and `d/workspace.json`. -/
def fsBoth : FileSystem :=
  { dirExists := fun _ => false
    fileExists := fun p => p == ["d", "app.json"] || p == ["d", "workspace.json"]
    manifest := fun _ => JVal.null }

/-- Witness for C10: with both manifests present the dispatch loads an App. -/
theorem c10_dispatch_order_wit :
    ∃ c : Ctx, genericLoad fsBoth (some ["d"]) = some c ∧ c.kind = CKind.app :=
  (c10_dispatch_order fsBoth ["d"]).2.2.2.2.2 (by decide) (by decide)

/-- A property environment declaring the same sub-package root twice. -/
def gpDup : String → Option String :=
  fun p => if p = "app.packages.dir" then some "pkgs,pkgs" else none

/-- Claim C1 (behavior at the failing input): because line 241 passes the
`distinctifyPaths` factory itself as the `Array.filter` callback, the
dedup/existence filter never runs; an `app.packages.dir` of `"pkgs,pkgs"`
over an empty filesystem yields the same non-existent directory twice, while
the intended filter (`distinctifyPaths()` applied) would drop both. -/
theorem c1_filter_noop_behavior :
    getPackagePath CKind.app ["w"] gpDup = [["w", "pkgs"], ["w", "pkgs"]]
      ∧ jsExists fsEmpty ["w", "pkgs"] = false
      ∧ getPackagePathIntended fsEmpty CKind.app ["w"] gpDup = [] :=
  ⟨rfl, rfl, rfl⟩

/-- A property environment setting no package-path property at all. -/
def gpNone : String → Option String := fun _ => none

/-- Counterexample to claim C9 as stated: with no package-path property set
and `<dir>/packages` non-existent, `getPackagePath` still returns the
fallback entry instead of the empty list the "returned iff it exists" clause
demands (the existence filter is the no-op of C1). -/
theorem c9_fallback_cex :
    getPackagePath CKind.app ["w"] gpNone = [["w", "packages"]]
      ∧ jsExists fsEmpty ["w", "packages"] = false :=
  ⟨rfl, rfl⟩

theorem gatherPackageDirs_nil (dir : FsPath) (gp : String → Option String) :
    ∀ props : List String, (∀ p ∈ props, gp p = none ∨ gp p = some "") →
      gatherPackageDirs dir gp props = [] := by
  intro props
  induction props with
  | nil => intro _; rfl
  | cons p rest ih =>
      intro h
      have hp := h p (by simp)
      have hr := ih (fun q hq => h q (by simp [hq]))
      rcases hp with hp | hp <;> simp [gatherPackageDirs, hp, hr]

/-- Claim C9 as amended: when a Workspace/App/Package context's declared
package-path properties are all absent or empty, `getPackagePath` returns
exactly the single fallback `<dir>/packages` — unconditionally, whether or
not that directory exists (the existence/duplicate filter of line 241 is a
no-op, cf. C1); Toolkit and Theme, declaring no properties, return the empty
list without any fallback. -/
theorem c9_fallback_behavior :
    ∀ (dir : FsPath) (gp : String → Option String),
      (∀ k : CKind,
          k = CKind.workspace ∨ k = CKind.app ∨ k = CKind.package →
          (∀ p ∈ (getPackagePathProps k).getD [], gp p = none ∨ gp p = some "") →
          getPackagePath k dir gp = [dir ++ ["packages"]])
        ∧ getPackagePath CKind.toolkit dir gp = []
        ∧ getPackagePath CKind.theme dir gp = [] := by
  intro dir gp
  refine ⟨?_, rfl, rfl⟩
  intro k hk hv
  have hnil := gatherPackageDirs_nil dir gp ((getPackagePathProps k).getD []) hv
  rcases hk with h | h | h <;> subst h <;>
    simp [getPackagePathProps] at hnil <;>
    simp [getPackagePath, packageDirsPreFilter, getPackagePathProps, hnil]

/-- Witness for the amended C9 at a concrete context. -/
theorem c9_fallback_behavior_wit :
    getPackagePath CKind.app ["w"] gpNone = [["w"] ++ ["packages"]] :=
  (c9_fallback_behavior ["w"] gpNone).1 CKind.app (Or.inr (Or.inl rfl)) (by decide)

/-- Claim C8: when the merged property store yields no value for the
context's `classpath` (resp. `overrides`) property, the getter hands
`undefined` to `path.split` and the access throws instead of returning a
list. -/
theorem c8_missing_path_props_raise :
    ∀ c ws : Ctx,
      getProp c ws (relScope c.kind ++ ".classpath") = none →
      getProp c ws (relScope c.kind ++ ".overrides") = none →
      classpathGet c ws = Except.error "TypeError: cannot read split of undefined"
        ∧ overridesGet c ws = Except.error "TypeError: cannot read split of undefined" := by
  intro c ws h1 h2
  constructor
  · simp [classpathGet, resolvePathJS, h1]
  · simp [overridesGet, resolvePathJS, h2]

/-- A concrete App context whose manifest sets `x` and neither `classpath`
nor `overrides`. -/
def cAppW : Ctx :=
  { kind := CKind.app
    dir := ["a"]
    file := ["a", "app.json"]
    data := JVal.obj [("x", JVal.str "1")] }

/-- A concrete Workspace context with an empty manifest. -/
def wsPlainW : Ctx :=
  { kind := CKind.workspace
    dir := ["w"]
    file := ["w", "workspace.json"]
    data := JVal.obj [] }

/-- Witness for C8 at a concrete App/Workspace pair. -/
theorem c8_missing_path_props_raise_wit :
    classpathGet cAppW wsPlainW =
        Except.error "TypeError: cannot read split of undefined"
      ∧ overridesGet cAppW wsPlainW =
        Except.error "TypeError: cannot read split of undefined" :=
  c8_missing_path_props_raise cAppW wsPlainW rfl rfl

/-- Claim C5: for a context whose manifest carries a string `framework`
value, the getter dispatches through the owning Workspace's named table
exactly when the name is declared there; otherwise it resolves the value
against the context's own directory and loads a sibling Framework, raising
the fatal error when that resolved path does not exist (also when no
workspace resolved at all). -/
theorem c5_framework_resolution :
    ∀ (fs : FileSystem) (c w : Ctx) (fw : String),
      jLookup c.data "framework" = some (JVal.str fw) →
      (hasFramework w.data fw = Except.ok true →
          frameworkGet fs c (some w) = getFramework fs w fw)
        ∧ (hasFramework w.data fw = Except.ok false →
            frameworkGet fs c (some w) = siblingLoad fs c fw)
        ∧ (hasFramework w.data fw = Except.ok false →
            jsExists fs (resolvePath c.dir fw) = false →
            frameworkGet fs c (some w) =
              Except.error "Framework path does not exist")
        ∧ frameworkGet fs c none = siblingLoad fs c fw
        ∧ (jsExists fs (resolvePath c.dir fw) = false →
            frameworkGet fs c none =
              Except.error "Framework path does not exist") := by
  intro fs c w fw h
  refine ⟨?_, ?_, ?_, ?_, ?_⟩
  · intro ht
    simp [frameworkGet, h, ht]
  · intro hf
    simp [frameworkGet, h, hf]
  · intro hf hne
    simp [frameworkGet, h, hf, siblingLoad, hne]
  · simp [frameworkGet, h]
  · intro hne
    simp [frameworkGet, h, siblingLoad, hne]

/-- A concrete App context declaring framework `"ext"`. -/
def cFwW : Ctx :=
  { kind := CKind.app
    dir := ["a"]
    file := ["a", "app.json"]
    data := JVal.obj [("framework", JVal.str "ext")] }

/-- A concrete Workspace declaring `"ext"` in its frameworks table. -/
def wsFwW : Ctx :=
  { kind := CKind.workspace
    dir := ["w"]
    file := ["w", "workspace.json"]
    data := JVal.obj [("frameworks", JVal.obj [("ext", JVal.obj [("path", JVal.str "ext")])])] }

/-- Witness for C5: table dispatch when declared; fatal error on a
non-existent sibling path when no workspace resolves. -/
theorem c5_framework_resolution_wit :
    frameworkGet fsEmpty cFwW (some wsFwW) = getFramework fsEmpty wsFwW "ext"
      ∧ frameworkGet fsEmpty cFwW none =
        Except.error "Framework path does not exist" :=
  ⟨(c5_framework_resolution fsEmpty cFwW wsFwW "ext" rfl).1 rfl,
   (c5_framework_resolution fsEmpty cFwW wsFwW "ext" rfl).2.2.2.2 rfl⟩

theorem fieldsLookup_map_set (k : String) (x : JVal) :
    ∀ fields : List (String × JVal),
      fields.any (fun e => e.1 = k) = true →
      jLookup.fieldsLookup (fields.map (fun e => if e.1 = k then (k, x) else e)) k =
        some x := by
  intro fields
  induction fields with
  | nil => intro hany; simp at hany
  | cons e rest ih =>
      obtain ⟨a, b⟩ := e
      intro hany
      by_cases he : a = k
      · subst he
        have hhead : (if (a, b).1 = a then (a, x) else (a, b)) = (a, x) := if_pos rfl
        rw [List.map_cons, hhead]
        simp [jLookup.fieldsLookup]
      · have hhead : (if (a, b).1 = k then (k, x) else (a, b)) = (a, b) := if_neg he
        have hr : rest.any (fun e => e.1 = k) = true := by
          rw [List.any_cons] at hany
          simpa [he] using hany
        rw [List.map_cons, hhead]
        simp [jLookup.fieldsLookup, he, ih hr]

theorem fieldsLookup_append_new (k : String) (x : JVal) :
    ∀ fields : List (String × JVal),
      fields.any (fun e => e.1 = k) = false →
      jLookup.fieldsLookup (fields ++ [(k, x)]) k = some x := by
  intro fields
  induction fields with
  | nil => intro _; simp [jLookup.fieldsLookup]
  | cons e rest ih =>
      obtain ⟨a, b⟩ := e
      intro hany
      rw [List.any_cons] at hany
      by_cases ha : a = k
      · exfalso
        simp [ha] at hany
      · have hrest : rest.any (fun e => e.1 = k) = false := by simpa [ha] using hany
        simp [jLookup.fieldsLookup, ha, ih hrest]

theorem fieldsLookup_map_set_other (k : String) (x : JVal) (key : String)
    (h : key ≠ k) :
    ∀ fields : List (String × JVal),
      jLookup.fieldsLookup (fields.map (fun e => if e.1 = k then (k, x) else e)) key =
        jLookup.fieldsLookup fields key := by
  intro fields
  induction fields with
  | nil => rfl
  | cons e rest ih =>
      obtain ⟨a, b⟩ := e
      by_cases he : a = k
      · subst he
        have hhead : (if (a, b).1 = a then (a, x) else (a, b)) = (a, x) := if_pos rfl
        rw [List.map_cons, hhead]
        have hak : ¬ a = key := fun hkk => h hkk.symm
        simp [jLookup.fieldsLookup, hak, ih]
      · have hhead : (if (a, b).1 = k then (k, x) else (a, b)) = (a, b) := if_neg he
        rw [List.map_cons, hhead]
        by_cases hk : a = key
        · simp [jLookup.fieldsLookup, hk]
        · simp [jLookup.fieldsLookup, hk, ih]

theorem fieldsLookup_append_other (k : String) (x : JVal) (key : String)
    (h : key ≠ k) :
    ∀ fields : List (String × JVal),
      jLookup.fieldsLookup (fields ++ [(k, x)]) key =
        jLookup.fieldsLookup fields key := by
  intro fields
  induction fields with
  | nil => simp [jLookup.fieldsLookup, Ne.symm h]
  | cons e rest ih =>
      obtain ⟨a, b⟩ := e
      by_cases hk : a = key
      · simp [jLookup.fieldsLookup, hk]
      · simp [jLookup.fieldsLookup, hk, ih]

/-- Looking up the key just assigned on an object yields the assigned value. -/
theorem jLookup_jSet_self (fields : List (String × JVal)) (k : String) (x : JVal) :
    jLookup (jSet (JVal.obj fields) k x) k = some x := by
  cases hany : fields.any (fun e => e.1 = k) with
  | true =>
      have hs : jSet (JVal.obj fields) k x =
          JVal.obj (fields.map (fun e => if e.1 = k then (k, x) else e)) := by
        simp [jSet, hany]
      rw [hs]
      exact fieldsLookup_map_set k x fields hany
  | false =>
      have hs : jSet (JVal.obj fields) k x = JVal.obj (fields ++ [(k, x)]) := by
        simp [jSet, hany]
      rw [hs]
      exact fieldsLookup_append_new k x fields hany

/-- Assignment does not disturb other keys. -/
theorem jLookup_jSet_other (v : JVal) (k : String) (x : JVal) (key : String)
    (h : key ≠ k) : jLookup (jSet v k x) key = jLookup v key := by
  cases v with
  | obj fields =>
      cases hany : fields.any (fun e => e.1 = k) with
      | true =>
          have hs : jSet (JVal.obj fields) k x =
              JVal.obj (fields.map (fun e => if e.1 = k then (k, x) else e)) := by
            simp [jSet, hany]
          rw [hs]
          exact fieldsLookup_map_set_other k x key h fields
      | false =>
          have hs : jSet (JVal.obj fields) k x = JVal.obj (fields ++ [(k, x)]) := by
            simp [jSet, hany]
          rw [hs]
          exact fieldsLookup_append_other k x key h fields
  | null => rfl
  | bool b => rfl
  | num n => rfl
  | str s => rfl
  | arr xs => rfl

/-- Optional assignment does not disturb other keys either. -/
theorem jLookup_jSetOpt_other (v : JVal) (k : String) (o : Option JVal)
    (key : String) (h : key ≠ k) : jLookup (jSetOpt v k o) key = jLookup v key := by
  cases o with
  | none => rfl
  | some x => exact jLookup_jSet_other v k x key h

/-- `jSet` on an object yields an object. -/
theorem jSet_obj (f : List (String × JVal)) (k : String) (x : JVal) :
    ∃ f2, jSet (JVal.obj f) k x = JVal.obj f2 := by
  cases hany : f.any (fun e => e.1 = k) with
  | true =>
      exact ⟨f.map (fun e => if e.1 = k then (k, x) else e), by simp [jSet, hany]⟩
  | false => exact ⟨f ++ [(k, x)], by simp [jSet, hany]⟩

/-- `jSetOpt` on an object yields an object. -/
theorem jSetOpt_obj (f : List (String × JVal)) (k : String) (o : Option JVal) :
    ∃ f2, jSetOpt (JVal.obj f) k o = JVal.obj f2 := by
  cases o with
  | none => exact ⟨f, rfl⟩
  | some x => exact jSet_obj f k x

/-- Claim C6: for a Package manifest whose outer document carries an
object-valued `sencha` member, the constructed data is that sub-object
promoted to top level: the outer document (minus `sencha`) is retained under
`$npm`; `name`/`version` keep the sub-object's own truthy values and fall
back to the outer document's when the sub-object does not set them; every
other key of the sub-object is preserved. -/
theorem c6_sencha_promotion :
    ∀ (data : JVal) (sf : List (String × JVal)),
      jLookup data "sencha" = some (JVal.obj sf) →
      jLookup (pkgCtorData data) "$npm" = some (jDelete data "sencha")
        ∧ (∀ v : JVal, jLookup (JVal.obj sf) "name" = some v → jTruthy v = true →
            jLookup (pkgCtorData data) "name" = some v)
        ∧ (jLookup (JVal.obj sf) "name" = none →
            jLookup (pkgCtorData data) "name" =
              jLookup (jDelete data "sencha") "name")
        ∧ (∀ v : JVal, jLookup (JVal.obj sf) "version" = some v → jTruthy v = true →
            jLookup (pkgCtorData data) "version" = some v)
        ∧ (jLookup (JVal.obj sf) "version" = none →
            jLookup (pkgCtorData data) "version" =
              jLookup (jDelete data "sencha") "version")
        ∧ (∀ key : String, key ≠ "$npm" → key ≠ "name" → key ≠ "version" →
            jLookup (pkgCtorData data) key = jLookup (JVal.obj sf) key) := by
  intro data sf h
  have hrw : pkgCtorData data =
      jSetOpt
        (jSetOpt (jSet (JVal.obj sf) "$npm" (jDelete data "sencha")) "name"
          (jsOr (jLookup (JVal.obj sf) "name")
            (jLookup (jDelete data "sencha") "name")))
        "version"
        (jsOr (jLookup (JVal.obj sf) "version")
          (jLookup (jDelete data "sencha") "version")) := by
    simp [pkgCtorData, h, jTruthy]
  obtain ⟨f1, hf1⟩ := jSet_obj sf "$npm" (jDelete data "sencha")
  refine ⟨?_, ?_, ?_, ?_, ?_, ?_⟩
  · rw [hrw]
    rw [jLookup_jSetOpt_other _ "version" _ "$npm" (by decide)]
    rw [jLookup_jSetOpt_other _ "name" _ "$npm" (by decide)]
    exact jLookup_jSet_self sf "$npm" _
  · intro v hv htr
    rw [hrw]
    rw [jLookup_jSetOpt_other _ "version" _ "name" (by decide)]
    rw [hv]
    have hor : jsOr (some v) (jLookup (jDelete data "sencha") "name") = some v := by
      simp [jsOr, htr]
    rw [hor, hf1]
    exact jLookup_jSet_self f1 "name" v
  · intro hv
    rw [hrw]
    rw [jLookup_jSetOpt_other _ "version" _ "name" (by decide)]
    rw [hv]
    cases hb : jLookup (jDelete data "sencha") "name" with
    | none =>
        show jLookup (jSet (JVal.obj sf) "$npm" (jDelete data "sencha")) "name" = none
        rw [jLookup_jSet_other _ "$npm" _ "name" (by decide)]
        exact hv
    | some w =>
        rw [hf1]
        exact jLookup_jSet_self f1 "name" w
  · intro v hv htr
    rw [hrw]
    rw [hv]
    have hor : jsOr (some v) (jLookup (jDelete data "sencha") "version") = some v := by
      simp [jsOr, htr]
    rw [hor, hf1]
    obtain ⟨f2, hf2⟩ := jSetOpt_obj f1 "name"
      (jsOr (jLookup (JVal.obj sf) "name") (jLookup (jDelete data "sencha") "name"))
    rw [hf2]
    exact jLookup_jSet_self f2 "version" v
  · intro hv
    rw [hrw]
    rw [hv]
    cases hb : jLookup (jDelete data "sencha") "version" with
    | none =>
        show jLookup
            (jSetOpt (jSet (JVal.obj sf) "$npm" (jDelete data "sencha")) "name"
              (jsOr (jLookup (JVal.obj sf) "name")
                (jLookup (jDelete data "sencha") "name"))) "version" = none
        rw [jLookup_jSetOpt_other _ "name" _ "version" (by decide)]
        rw [jLookup_jSet_other _ "$npm" _ "version" (by decide)]
        exact hv
    | some w =>
        rw [hf1]
        obtain ⟨f2, hf2⟩ := jSetOpt_obj f1 "name"
          (jsOr (jLookup (JVal.obj sf) "name") (jLookup (jDelete data "sencha") "name"))
        rw [hf2]
        exact jLookup_jSet_self f2 "version" w
  · intro key h1 h2 h3
    rw [hrw]
    rw [jLookup_jSetOpt_other _ "version" _ key h3]
    rw [jLookup_jSetOpt_other _ "name" _ key h2]
    exact jLookup_jSet_other _ "$npm" _ key h1

/-- A concrete npm-shaped Package manifest with a nested `sencha` object. -/
def pkgDataW : JVal :=
  JVal.obj [("name", JVal.str "outer"), ("version", JVal.str "2"),
    ("sencha", JVal.obj [("foo", JVal.str "bar")])]

/-- Witness for C6: the outer document lands under `$npm` and the promoted
data's `name` falls back to the outer document's. -/
theorem c6_sencha_promotion_wit :
    jLookup (pkgCtorData pkgDataW) "$npm" = some (jDelete pkgDataW "sencha")
      ∧ jLookup (pkgCtorData pkgDataW) "name" =
        jLookup (jDelete pkgDataW "sencha") "name" :=
  ⟨(c6_sencha_promotion pkgDataW [("foo", JVal.str "bar")] rfl).1,
   (c6_sencha_promotion pkgDataW [("foo", JVal.str "bar")] rfl).2.2.1 rfl⟩

theorem pmGet_append_some {l1 : List (String × JVal)} {k : String} {v : JVal}
    (h : pmGet l1 k = some v) (l2 : List (String × JVal)) :
    pmGet (l1 ++ l2) k = some v := by
  induction l1 with
  | nil => simp [pmGet] at h
  | cons e rest ih =>
      obtain ⟨a, b⟩ := e
      by_cases ha : a = k
      · simpa [pmGet, ha] using h
      · rw [List.cons_append, pmGet, if_neg ha]
        rw [pmGet, if_neg ha] at h
        exact ih h

/-- `add` never overwrites an already-registered key (first-write-wins). -/
theorem get_add_some {m : PropertyMap} {k : String} {v : JVal}
    (h : m.get k = some v) (k2 : String) (v2 : JVal) :
    (m.add k2 v2).get k = some v := by
  unfold PropertyMap.add
  split
  · exact h
  · exact pmGet_append_some h _

/-- `addAll` preserves every already-registered key. -/
theorem get_addAll_some :
    ∀ (l : List (String × JVal)) (m : PropertyMap) {k : String} {v : JVal},
      m.get k = some v → (m.addAll l).get k = some v := by
  intro l
  induction l with
  | nil => intro m k v h; exact h
  | cons e rest ih =>
      obtain ⟨a, b⟩ := e
      intro m k v h
      exact ih _ (get_add_some h a b)

/-- `flatten` preserves every already-registered key. -/
theorem get_flatten_some {m : PropertyMap} {pre : String} {data : JVal}
    {k : String} {v : JVal} (h : m.get k = some v) :
    (m.flatten pre data).get k = some v :=
  get_addAll_some _ m h

/-- A whole `_gatherProps` pass preserves every already-registered key. -/
theorem get_gatherInto_some {m : PropertyMap} {key : String} {data : JVal}
    {dir : FsPath} {k : String} {v : JVal} (h : m.get k = some v) :
    (gatherPropsInto m key data dir).get k = some v :=
  get_add_some (get_flatten_some h) _ _

/-- Claim C4: `getConfigProps` builds the merged store by running the
context's own `_gatherProps` pass (its manifest flattened under its kind
keyword) first and the owning Workspace's pass into the same store second;
since the store is first-write-wins, any key the own pass registered is
observed through `getProp` with the context's own value, whatever the
workspace pass writes. -/
theorem c4_own_props_first :
    ∀ c ws : Ctx,
      getConfigProps c ws =
          gatherPropsInto (gatherPropsOwn (kindKey c.kind) c.data c.dir)
            "workspace" ws.data ws.dir
        ∧ (∀ (k : String) (v : JVal),
            (gatherPropsOwn (kindKey c.kind) c.data c.dir).get k = some v →
            getProp c ws k = some v) := by
  intro c ws
  refine ⟨rfl, ?_⟩
  intro k v h
  exact get_gatherInto_some h

/-- A Workspace manifest that also sets `x` (under its own prefix). -/
def wsXW : Ctx :=
  { kind := CKind.workspace
    dir := ["w"]
    file := ["w", "workspace.json"]
    data := JVal.obj [("x", JVal.str "2")] }

/-- Witness for C4: the App's own `x` survives the workspace pass. -/
theorem c4_own_props_first_wit :
    getProp cAppW wsXW "app.x" = some (JVal.str "1") :=
  (c4_own_props_first cAppW wsXW).2 "app.x" (JVal.str "1") rfl
